import Mathlib

/- A model of the image proxy in src/main.rs: query-parameter parsing, the
   fit/resize dimension logic, and the request handler.  Machine `u32` values
   are modelled as `ℕ` with explicit `% 2^32` where the Rust code can wrap.
   The `f32`/`f64` scale factors used by the code and by the `image` crate
   are modelled by exact arithmetic: every scale factor there is a quotient
   of `u32` values, and rounding a scaled value is round-half-away-from-zero
   of an exact rational `a / b`, which is the integer `(2a + b) / (2b)`
   (`roundHalfUp`, proved equal to `⌊a/b + 1/2⌋` in `roundHalfUp_eq_rustRound`).
   Decoding, encoding and fetching are abstracted as function parameters;
   only their dimension/byte-level contracts matter for the properties
   proved below. -/

namespace Quickly

def U32MAX : ℕ := 4294967295

def U32SIZE : ℕ := 4294967296

/-- The specification-side rounding function: round half away from zero of a
non-negative rational, as Rust's `f32::round`/`f64::round` compute on the
(non-negative) scale products appearing in this program. -/
def rustRound (q : ℚ) : ℕ := (⌊q + 1 / 2⌋).toNat

/-- Round-half-away-from-zero of the non-negative quotient `a / b`, in
integer arithmetic.  `roundHalfUp a b = rustRound (a / b)`
(see `roundHalfUp_eq_rustRound`); this form is used in the executable model
so that concrete instances evaluate by `decide`. -/
def roundHalfUp (a b : ℕ) : ℕ := (2 * a + b) / (2 * b)

/-- The decoded pixel buffer, abstracted to its dimensions. -/
structure Image where
  width : ℕ
  height : ℕ
deriving DecidableEq

inductive ImageFormat where
  | Png
  | Jpeg
  | Gif
  | WebP
  | Bmp
  | Tiff
deriving DecidableEq

/-- Model of the `image` crate's `resize_dimensions(width, height, nwidth,
nheight, fill)`: the scale ratio is the min (fit-within) or max (fill) of the
two axis ratios `nwidth/width` and `nheight/height` (the comparison is done
here by cross-multiplication), each output dimension is the rounded scaled
source dimension floored at 1, and results beyond `u32::MAX` are clamped. -/
def resize_dimensions (w h nw nh : ℕ) (fill : Bool) : ℕ × ℕ :=
  let useW : Bool := cond fill (decide (nh * w ≤ nw * h)) (decide (nw * h ≤ nh * w))
  let rn : ℕ := cond useW nw nh
  let rd : ℕ := cond useW w h
  let nw2 : ℕ := max (roundHalfUp (w * rn) rd) 1
  let nh2 : ℕ := max (roundHalfUp (h * rn) rd) 1
  if U32MAX < nw2 then
    (U32MAX, max (roundHalfUp (h * U32MAX) w) 1)
  else if U32MAX < nh2 then
    (max (roundHalfUp (w * U32MAX) h) 1, U32MAX)
  else
    (nw2, nh2)

/-- `DynamicImage::resize`: aspect-ratio-preserving resize that fits within
the `nw × nh` box (with an early return when the box equals the current
dimensions). -/
def Image.resize (img : Image) (nw nh : ℕ) : Image :=
  if nw = img.width ∧ nh = img.height then img
  else
    Image.mk (resize_dimensions img.width img.height nw nh false).1
      (resize_dimensions img.width img.height nw nh false).2

/-- `DynamicImage::resize_exact`: resize to exactly `nw × nh`. -/
def Image.resize_exact (_img : Image) (nw nh : ℕ) : Image := Image.mk nw nh

/-- `DynamicImage::crop` dimension behaviour: the crop rectangle is clamped
to the image bounds. -/
def Image.crop (img : Image) (x y cw ch : ℕ) : Image :=
  Image.mk (min cw (img.width - min x img.width))
    (min ch (img.height - min y img.height))

/-- `DynamicImage::resize_to_fill`: scale so the box is covered
(`fill = true`), then centre-crop back to the box. -/
def Image.resize_to_fill (img : Image) (nw nh : ℕ) : Image :=
  let d := resize_dimensions img.width img.height nw nh true
  if nw * d.2 > d.1 * nh then
    (Image.mk d.1 d.2).crop 0 ((d.2 - nh) / 2) nw nh
  else
    (Image.mk d.1 d.2).crop ((d.1 - nw) / 2) 0 nw nh

inductive FitType where
  | Bounds
  | Cover
  | Crop
deriving DecidableEq

/-- `TryFrom<&str> for FitType`: exact, case-sensitive match; anything else
is a deserialization failure (modelled as `none`). -/
def FitType.tryFrom (value : String) : Option FitType :=
  if value = "bounds" then some FitType.Bounds
  else if value = "cover" then some FitType.Cover
  else if value = "crop" then some FitType.Crop
  else none

structure QueryParams where
  width : Option ℕ
  height : Option ℕ
  fit : Option FitType
  format : Option String
deriving DecidableEq

/-- `QueryParams::default()`: every field unset. -/
def QueryParams.mkDefault : QueryParams := QueryParams.mk none none none none

/-- `QueryParams::has_resize`. -/
def QueryParams.has_resize (q : QueryParams) : Bool :=
  q.width.isSome || q.height.isSome || q.fit.isSome

/-- Parsing of one `u32` query value: a non-empty all-digit string whose
value is at most `u32::MAX`; anything else (empty, signs, other characters,
overflow) is a parse failure. -/
def parseU32 (s : String) : Option ℕ :=
  match s.data with
  | [] => none
  | ds =>
    if ds.all Char.isDigit then
      if ds.foldl (fun acc c => acc * 10 + (c.toNat - 48)) 0 ≤ U32MAX then
        some (ds.foldl (fun acc c => acc * 10 + (c.toNat - 48)) 0)
      else none
    else none

/-- Serde-style handling of a single key/value pair during deserialization of
`QueryParams`; a malformed value for a recognized key fails the whole parse,
unknown keys are ignored. -/
def parsePair (q : QueryParams) (kv : String × String) : Option QueryParams :=
  if kv.1 = "width" then
    (parseU32 kv.2).map fun n => QueryParams.mk (some n) q.height q.fit q.format
  else if kv.1 = "height" then
    (parseU32 kv.2).map fun n => QueryParams.mk q.width (some n) q.fit q.format
  else if kv.1 = "fit" then
    (FitType.tryFrom kv.2).map fun f => QueryParams.mk q.width q.height (some f) q.format
  else if kv.1 = "format" then
    some (QueryParams.mk q.width q.height q.fit (some kv.2))
  else
    some q

/-- `req.query::<QueryParams>()`: all-or-nothing deserialization of the query
pairs. -/
def parseQueryParams (pairs : List (String × String)) : Option QueryParams :=
  pairs.foldlM parsePair QueryParams.mkDefault

/-- `check_format_specified`. -/
def check_format_specified (format : Option String) : Option ImageFormat :=
  match format with
  | none => none
  | some extension =>
    if extension = "jpg" then some ImageFormat.Jpeg
    else if extension = "jpeg" then some ImageFormat.Jpeg
    else if extension = "webp" then some ImageFormat.WebP
    else if extension = "png" then some ImageFormat.Png
    else if extension = "gif" then some ImageFormat.Gif
    else none

/-- The `match (fit, width, height)` strategy selection inside
`resize_image`, lines 143-162 of src/main.rs, as a dimension transformation.
The `u32` expressions `(h / src_height) * w` and `(w / src_width) * h` use
integer division and wrapping multiplication exactly as compiled from the
source; the width-only branch computes `(w as f32 / src_width as f32) *
src_height as f32`, rounded (`roundHalfUp (w * src_height) src_width`) and
cast to `u32` (saturating at `u32::MAX`). -/
def resizeStep (img : Image) (width height : Option ℕ) (fit : Option FitType) : Image :=
  match fit, width, height with
  | some FitType.Crop, some w, some h => img.resize_to_fill w h
  | some FitType.Bounds, some w, some h => img.resize w h
  | some FitType.Cover, some w, some h =>
    if h < w then
      img.resize (h / img.height * w % U32SIZE) h
    else
      img.resize w (w / img.width * h % U32SIZE)
  | _, _, _ =>
    match width, height with
    | none, none => img
    | some w, none =>
      img.resize w (min (roundHalfUp (w * img.height) img.width) U32MAX)
    | none, some h => img.resize (h / img.height * img.width % U32SIZE) h
    | some w, some h => img.resize_exact w h

/-- `resize_image`: sniff+decode (abstracted as `decode`), apply the resize
strategy, and encode in the explicit format if one was recognized, else the
sniffed source format.  `none` models the `anyhow::Result` error path. -/
def resize_image (decode : List ℕ → Option (ImageFormat × Image))
    (encode : Image → ImageFormat → Option (List ℕ))
    (buffer : List ℕ) (width height : Option ℕ) (fit : Option FitType)
    (format : Option ImageFormat) : Option (List ℕ) :=
  match decode buffer with
  | none => none
  | some (srcFormat, img) => encode (resizeStep img width height fit) (format.getD srcFormat)

structure Response where
  status : ℕ
  body : List ℕ
  contentType : Option String
deriving DecidableEq

/-- `transform_image`: the request handler.  Returns the response (`none`
models an error propagated to the framework, surfaced as a 5xx) together with
the list of origin URLs fetched. -/
def transform_image (decode : List ℕ → Option (ImageFormat × Image))
    (encode : Image → ImageFormat → Option (List ℕ))
    (fetch : String → List ℕ) (upstream : String)
    (path : Option String) (pairs : List (String × String)) :
    Option Response × List String :=
  match path with
  | none => (some (Response.mk 422 [] none), [])
  | some p =>
    let query := (parseQueryParams pairs).getD QueryParams.mkDefault
    let url := upstream ++ "/" ++ p
    let buffer := fetch url
    if query.has_resize then
      match resize_image decode encode buffer query.width query.height query.fit
          (check_format_specified query.format) with
      | none => (none, [url])
      | some out => (some (Response.mk 200 out (some "application/octet-stream")), [url])
    else
      (some (Response.mk 200 buffer (some "application/octet-stream")), [url])

def testBytes : List ℕ := [1, 2, 3]

def testFetch : String → List ℕ := fun _ => testBytes

def testImage : Image := Image.mk 8 6

def testDecode : List ℕ → Option (ImageFormat × Image) :=
  fun _ => some (ImageFormat.Jpeg, testImage)

def testEncode : Image → ImageFormat → Option (List ℕ) := fun _ _ => some [9, 9]

/-- The floor of a quotient of naturals, taken over `ℚ`, is natural
division. -/
lemma floor_natCast_div (m n : ℕ) (hn : 0 < n) :
    ⌊(m : ℚ) / (n : ℚ)⌋ = ((m / n : ℕ) : ℤ) := by
  have hn' : (0 : ℚ) < (n : ℚ) := by exact_mod_cast hn
  rw [Int.floor_eq_iff]
  constructor
  · rw [le_div_iff₀ hn']
    exact_mod_cast Nat.div_mul_le_self m n
  · rw [div_lt_iff₀ hn', mul_comm]
    exact_mod_cast Nat.lt_mul_div_succ m hn

/-- The executable rounding `roundHalfUp` agrees with the specification-side
`rustRound` on quotients: `roundHalfUp a b = round(a / b)` half away from
zero. -/
lemma roundHalfUp_eq_rustRound (a b : ℕ) (hb : 0 < b) :
    roundHalfUp a b = rustRound ((a : ℚ) / (b : ℚ)) := by
  have hb' : (0 : ℚ) < (b : ℚ) := by exact_mod_cast hb
  have key : (a : ℚ) / (b : ℚ) + 1 / 2 = ((2 * a + b : ℕ) : ℚ) / ((2 * b : ℕ) : ℚ) := by
    push_cast
    field_simp
    ring
  unfold rustRound roundHalfUp
  rw [key, floor_natCast_div _ _ (by omega), Int.toNat_natCast]

/-- Rounding the quotient `(b * n) / b` recovers `n`. -/
lemma roundHalfUp_mul_left (b n : ℕ) (hb : 0 < b) : roundHalfUp (b * n) b = n := by
  unfold roundHalfUp
  have h1 : 2 * (b * n) + b = b * (2 * n + 1) := by ring
  have h2 : 2 * b = b * 2 := by ring
  rw [h1, h2, Nat.mul_div_mul_left _ _ hb]
  omega

lemma roundHalfUp_le {a b n : ℕ} (hb : 0 < b) (h : a ≤ n * b) : roundHalfUp a b ≤ n := by
  unfold roundHalfUp
  have h2 : 2 * a + b < (n + 1) * (2 * b) := by nlinarith
  exact Nat.lt_succ_iff.mp ((Nat.div_lt_iff_lt_mul (by omega)).mpr h2)

lemma le_roundHalfUp {a b n : ℕ} (hb : 0 < b) (h : n * b ≤ a) : n ≤ roundHalfUp a b := by
  unfold roundHalfUp
  rw [Nat.le_div_iff_mul_le (by omega)]
  nlinarith

lemma one_le_U32MAX : (1 : ℕ) ≤ U32MAX := by
  norm_num [U32MAX]

/-- In the fit-within direction the scaled dimensions never exceed the box,
so the `u32::MAX` clamp is inert: `resize_dimensions` is the rounded
min-ratio scaling of the source, floored at 1, with the min ratio selected
by cross-multiplying the two aspect fractions. -/
lemma resize_dimensions_fit (sw sh bw bh : ℕ) (hsw : 0 < sw) (hsh : 0 < sh)
    (hbw : bw ≤ U32MAX) (hbh : bh ≤ U32MAX) :
    resize_dimensions sw sh bw bh false =
      if bw * sh ≤ bh * sw then
        (max (roundHalfUp (sw * bw) sw) 1, max (roundHalfUp (sh * bw) sw) 1)
      else
        (max (roundHalfUp (sw * bh) sh) 1, max (roundHalfUp (sh * bh) sh) 1) := by
  by_cases hc : bw * sh ≤ bh * sw
  · simp only [resize_dimensions, Bool.cond_false, decide_eq_true hc, Bool.cond_true]
    have r1 : roundHalfUp (sw * bw) sw = bw := roundHalfUp_mul_left sw bw hsw
    have c1 : max (roundHalfUp (sw * bw) sw) 1 ≤ U32MAX := by
      rw [r1]
      exact max_le hbw one_le_U32MAX
    have c2 : max (roundHalfUp (sh * bw) sw) 1 ≤ U32MAX := by
      refine max_le (roundHalfUp_le hsw ?_) one_le_U32MAX
      calc sh * bw = bw * sh := Nat.mul_comm sh bw
        _ ≤ bh * sw := hc
        _ ≤ U32MAX * sw := Nat.mul_le_mul_right sw hbh
    rw [if_neg (not_lt.mpr c1), if_neg (not_lt.mpr c2), if_pos hc]
  · simp only [resize_dimensions, Bool.cond_false, decide_eq_false hc]
    have hle : bh * sw ≤ bw * sh := Nat.le_of_lt (Nat.lt_of_not_le hc)
    have r2 : roundHalfUp (sh * bh) sh = bh := roundHalfUp_mul_left sh bh hsh
    have c1 : max (roundHalfUp (sw * bh) sh) 1 ≤ U32MAX := by
      refine max_le (roundHalfUp_le hsh ?_) one_le_U32MAX
      calc sw * bh = bh * sw := Nat.mul_comm sw bh
        _ ≤ bw * sh := hle
        _ ≤ U32MAX * sh := Nat.mul_le_mul_right sh hbw
    have c2 : max (roundHalfUp (sh * bh) sh) 1 ≤ U32MAX := by
      rw [r2]
      exact max_le hbh one_le_U32MAX
    rw [if_neg (not_lt.mpr c1), if_neg (not_lt.mpr c2), if_neg hc]

/-- Closed form of `Image.resize` (the aspect-preserving fit-within resize)
when the box is within `u32` range; the early-return branch for an unchanged
box agrees with the same formula. -/
lemma Image.resize_eq (sw sh bw bh : ℕ) (hsw : 0 < sw) (hsh : 0 < sh)
    (hbw : bw ≤ U32MAX) (hbh : bh ≤ U32MAX) :
    (Image.mk sw sh).resize bw bh =
      if bw * sh ≤ bh * sw then
        Image.mk (max (roundHalfUp (sw * bw) sw) 1) (max (roundHalfUp (sh * bw) sw) 1)
      else
        Image.mk (max (roundHalfUp (sw * bh) sh) 1) (max (roundHalfUp (sh * bh) sh) 1) := by
  simp only [Image.resize]
  split
  case isTrue hcase =>
    obtain ⟨e1, e2⟩ := hcase
    rw [e1, e2]
    rw [if_pos (Nat.le_of_eq (Nat.mul_comm sw sh)), roundHalfUp_mul_left sw sw hsw,
      Nat.mul_comm sh sw, roundHalfUp_mul_left sw sh hsw, Nat.max_eq_left hsw,
      Nat.max_eq_left hsh]
  case isFalse hcase =>
    rw [resize_dimensions_fit sw sh bw bh hsw hsh hbw hbh]
    by_cases hc : bw * sh ≤ bh * sw
    · simp only [if_pos hc]
    · simp only [if_neg hc]

/-- In the fill direction, when the source/box cross products stay within
`u32` range, the intermediate image covers the box: both scaled dimensions
are at least the requested ones. -/
lemma resize_dimensions_fill_bounds (sw sh w h : ℕ) (hsw : 0 < sw) (hsh : 0 < sh)
    (h1 : sw * h ≤ U32MAX) (h2 : sh * w ≤ U32MAX) :
    w ≤ (resize_dimensions sw sh w h true).1 ∧ h ≤ (resize_dimensions sw sh w h true).2 := by
  have hwmax : w ≤ U32MAX := le_trans (Nat.le_mul_of_pos_left w hsh) h2
  have hhmax : h ≤ U32MAX := le_trans (Nat.le_mul_of_pos_left h hsw) h1
  by_cases hc : h * sw ≤ w * sh
  · simp only [resize_dimensions, Bool.cond_true, decide_eq_true hc]
    have r1 : roundHalfUp (sw * w) sw = w := roundHalfUp_mul_left sw w hsw
    have c1 : max (roundHalfUp (sw * w) sw) 1 ≤ U32MAX := by
      rw [r1]
      exact max_le hwmax one_le_U32MAX
    have c2 : max (roundHalfUp (sh * w) sw) 1 ≤ U32MAX := by
      refine max_le (roundHalfUp_le hsw (le_trans h2 (Nat.le_mul_of_pos_right U32MAX hsw)))
        one_le_U32MAX
    rw [if_neg (not_lt.mpr c1), if_neg (not_lt.mpr c2)]
    constructor
    · rw [r1]
      exact le_max_left w 1
    · refine le_trans (le_roundHalfUp hsw ?_) (le_max_left _ 1)
      rw [Nat.mul_comm sh w]
      exact hc
  · simp only [resize_dimensions, Bool.cond_true, decide_eq_false hc, Bool.cond_false]
    have hle : w * sh ≤ h * sw := Nat.le_of_lt (Nat.lt_of_not_le hc)
    have r2 : roundHalfUp (sh * h) sh = h := roundHalfUp_mul_left sh h hsh
    have c1 : max (roundHalfUp (sw * h) sh) 1 ≤ U32MAX := by
      refine max_le (roundHalfUp_le hsh (le_trans h1 (Nat.le_mul_of_pos_right U32MAX hsh)))
        one_le_U32MAX
    have c2 : max (roundHalfUp (sh * h) sh) 1 ≤ U32MAX := by
      rw [r2]
      exact max_le hhmax one_le_U32MAX
    rw [if_neg (not_lt.mpr c1), if_neg (not_lt.mpr c2)]
    constructor
    · refine le_trans (le_roundHalfUp hsh ?_) (le_max_left _ 1)
      rw [Nat.mul_comm sw h]
      exact hle
    · rw [r2]
      exact le_max_left h 1

/-- Claim C7: for every incoming request whose path segment is missing, the
handler responds with HTTP status 422 and issues no upstream fetch (the list
of fetched URLs is empty). -/
theorem missing_path_422 (decode : List ℕ → Option (ImageFormat × Image))
    (encode : Image → ImageFormat → Option (List ℕ))
    (fetch : String → List ℕ) (upstream : String) (pairs : List (String × String)) :
    transform_image decode encode fetch upstream none pairs =
      (some (Response.mk 422 [] none), []) := rfl

/-- Claim C10: when `fit` is set but fewer than both of `width` and `height`
are set, the strategy selection falls through to the plain-resize rules: the
fit value has no effect, and with neither dimension set the image keeps its
original dimensions. -/
theorem fit_without_both_dims_ignored (img : Image) (ft : FitType) (w h : ℕ) :
    resizeStep img (some w) none (some ft) = resizeStep img (some w) none none ∧
    resizeStep img none (some h) (some ft) = resizeStep img none (some h) none ∧
    resizeStep img none none (some ft) = img := by
  cases ft <;> exact ⟨rfl, rfl, rfl⟩

/-- Claim C2 (counterexample): a request setting only `format=png` does NOT
re-encode; the response body is the untouched upstream bytes `[1,2,3]`, while
a re-encode through the encoder would have produced `[9,9]`. -/
theorem format_only_passthrough_counterexample :
    (transform_image testDecode testEncode testFetch "up" (some "img") [("format", "png")]).1 =
      some (Response.mk 200 testBytes (some "application/octet-stream")) ∧
    testEncode testImage ImageFormat.Png ≠ some testBytes := by
  constructor
  · rfl
  · decide

/-- Claim C2 (amended): a request whose query sets only `format` has
`has_resize` false, so the transform engine is never invoked and the response
is the untouched upstream bytes, whatever the format string is. -/
theorem format_only_passthrough (fmt : String)
    (decode : List ℕ → Option (ImageFormat × Image))
    (encode : Image → ImageFormat → Option (List ℕ))
    (fetch : String → List ℕ) (upstream p : String) :
    transform_image decode encode fetch upstream (some p) [("format", fmt)] =
      (some (Response.mk 200 (fetch (upstream ++ "/" ++ p)) (some "application/octet-stream")),
        [upstream ++ "/" ++ p]) := rfl

/-- Claim C3 (code bug): a height-only plain resize of an 800×600 source to
height 300 produces a 1×1 image, because the code computes the box width with
`u32` integer division `(300 / 600) * 800 = 0`; the claimed floating-point
formula `round((300/600) * 800) = 400` (with output height 300), which the
adjacent width-only branch implements, is clearly what was intended. -/
theorem height_only_integer_division_bug :
    resizeStep (Image.mk 800 600) none (some 300) none = Image.mk 1 1 ∧
    Image.mk 1 1 ≠ Image.mk (roundHalfUp (300 * 800) 600) 300 := by
  constructor
  · decide
  · decide

/-- Claim C9 (counterexample): `width=0` parses successfully into
`width = some 0` (the interpreter does not reject it), `has_resize` is true,
and the transform engine runs: the response body is the encoder output
`[9,9]`, not the fetched bytes. -/
theorem zero_width_accepted_counterexample :
    parseQueryParams [("width", "0")] = some (QueryParams.mk (some 0) none none none) ∧
    QueryParams.has_resize (QueryParams.mk (some 0) none none none) = true ∧
    (transform_image testDecode testEncode testFetch "up" (some "img") [("width", "0")]).1 =
      some (Response.mk 200 [9, 9] (some "application/octet-stream")) := by
  refine ⟨rfl, rfl, rfl⟩

/-- Claim C1 (counterexample): for a 100×100 source with `fit=cover`,
`width=200`, `height=100`, the spec formula demands output width
`(height/sh) * width = 200` and output height `100`, but the code passes that
formula value only as a bounding box to an aspect-preserving fit-within
resize, so the output is 100×100. -/
theorem cover_formula_counterexample :
    resizeStep (Image.mk 100 100) (some 200) (some 100) (some FitType.Cover) =
      Image.mk 100 100 ∧
    Image.mk 100 100 ≠ Image.mk (100 / 100 * 200) 100 := by
  constructor
  · decide
  · decide

/-- Claim C1 (amended): with `fit=cover` and both dimensions set, the code
computes a box by the spec's formula with `u32` integer division (width
`(h / sh) * w` and height `h` when `w > h`, else width `w` and height
`(w / sw) * h`) and then performs an aspect-preserving fit-WITHIN resize into
that box: the driving side of the output is the box value (floored at 1) and
the other side is the rounded scaled source dimension — the output does not
in general equal the formula values. -/
theorem cover_box_fit_amended (sw sh w h : ℕ) (hsw : 0 < sw) (hsh : 0 < sh)
    (hw : w ≤ U32MAX) (hh : h ≤ U32MAX)
    (hb1 : h / sh * w ≤ U32MAX) (hb2 : w / sw * h ≤ U32MAX) :
    resizeStep (Image.mk sw sh) (some w) (some h) (some FitType.Cover) =
      if h < w then
        if h / sh * w * sh ≤ h * sw then
          Image.mk (max (h / sh * w) 1) (max (roundHalfUp (sh * (h / sh * w)) sw) 1)
        else
          Image.mk (max (roundHalfUp (sw * h) sh) 1) (max h 1)
      else
        if w * sh ≤ w / sw * h * sw then
          Image.mk (max w 1) (max (roundHalfUp (sh * w) sw) 1)
        else
          Image.mk (max (roundHalfUp (sw * (w / sw * h)) sh) 1) (max (w / sw * h) 1) := by
  have hm1 : h / sh * w % U32SIZE = h / sh * w :=
    Nat.mod_eq_of_lt (lt_of_le_of_lt hb1 (by norm_num [U32MAX, U32SIZE]))
  have hm2 : w / sw * h % U32SIZE = w / sw * h :=
    Nat.mod_eq_of_lt (lt_of_le_of_lt hb2 (by norm_num [U32MAX, U32SIZE]))
  show (if h < w then (Image.mk sw sh).resize (h / sh * w % U32SIZE) h
      else (Image.mk sw sh).resize w (w / sw * h % U32SIZE)) = _
  rw [hm1, hm2]
  by_cases hcover : h < w
  · rw [if_pos hcover, if_pos hcover,
      Image.resize_eq sw sh (h / sh * w) h hsw hsh hb1 hh]
    by_cases hc : h / sh * w * sh ≤ h * sw
    · rw [if_pos hc, if_pos hc, roundHalfUp_mul_left sw (h / sh * w) hsw]
    · rw [if_neg hc, if_neg hc, roundHalfUp_mul_left sh h hsh]
  · rw [if_neg hcover, if_neg hcover,
      Image.resize_eq sw sh w (w / sw * h) hsw hsh hw hb2]
    by_cases hc : w * sh ≤ w / sw * h * sw
    · rw [if_pos hc, if_pos hc, roundHalfUp_mul_left sw w hsw]
    · rw [if_neg hc, if_neg hc, roundHalfUp_mul_left sh (w / sw * h) hsh]

/-- Claim C1 (witness for the amended theorem): an 80×60 source with
`fit=cover`, `width=40`, `height=30` yields a 1×1 output, because the
integer-division box width is `(30 / 60) * 40 = 0`. -/
theorem cover_box_fit_amended_witness :
    resizeStep (Image.mk 80 60) (some 40) (some 30) (some FitType.Cover) = Image.mk 1 1 := by
  have hth := cover_box_fit_amended 80 60 40 30 (by decide) (by decide) (by decide)
    (by decide) (by decide) (by decide)
  rw [hth]
  decide

/-- Claim C4 (counterexample): `fit=crop` with positive requested dimensions
does not always produce exactly the requested dimensions.  For an 800×600
source with `width=200`, `height=4294967295`, the fill-scale intermediate
width `round(800 * 4294967295/600)` exceeds `u32::MAX`, so the crate clamps
the intermediate to 4294967295×3221225471, and the centre-crop then yields
200×3221225471, short of the requested height. -/
theorem crop_clamp_counterexample :
    resizeStep (Image.mk 800 600) (some 200) (some 4294967295) (some FitType.Crop) =
      Image.mk 200 3221225471 ∧
    Image.mk 200 3221225471 ≠ Image.mk 200 4294967295 := by
  constructor
  · decide
  · decide

/-- Claim C4 (amended): with `fit=crop` and positive requested dimensions,
the output dimensions equal exactly the requested `w × h` provided the
source/request cross products `sw * h` and `sh * w` stay within `u32::MAX`
(so the fill-scale intermediate is not clamped): `resize_to_fill` scales to
cover the box and centre-crops back to it.  Beyond that range the clamp can
leave one output dimension short of the request. -/
theorem crop_exact_dims (sw sh w h : ℕ) (hsw : 0 < sw) (hsh : 0 < sh)
    (hw : 0 < w) (hh : 0 < h) (h1 : sw * h ≤ U32MAX) (h2 : sh * w ≤ U32MAX) :
    resizeStep (Image.mk sw sh) (some w) (some h) (some FitType.Crop) = Image.mk w h := by
  obtain ⟨hb1, hb2⟩ := resize_dimensions_fill_bounds sw sh w h hsw hsh h1 h2
  show (Image.mk sw sh).resize_to_fill w h = Image.mk w h
  simp only [Image.resize_to_fill, Image.crop]
  split <;> (simp only [Image.mk.injEq]; constructor <;> omega)

/-- Claim C4 (witness): cropping an 800×600 source to 200×200 yields exactly
200×200. -/
theorem crop_exact_dims_witness :
    resizeStep (Image.mk 800 600) (some 200) (some 200) (some FitType.Crop) =
      Image.mk 200 200 :=
  crop_exact_dims 800 600 200 200 (by decide) (by decide) (by decide) (by decide)
    (by decide) (by decide)

/-- Claim C5 (counterexample): for a 100×1 source with `width=249` only, the
rounded height is `round(249/100 * 1) = 2`, but 2/1 is a SMALLER scale than
249/100, so the fit-within resize recomputes the width as
`round(100 * 2/1) = 200`: the output is 200×2, not 249×2. -/
theorem width_only_counterexample :
    resizeStep (Image.mk 100 1) (some 249) none none = Image.mk 200 2 ∧
    Image.mk 200 2 ≠ Image.mk 249 (roundHalfUp (249 * 1) 100) := by
  constructor
  · decide
  · decide

/-- Claim C5 (amended): for a width-only plain resize the output is
`w × round(w / sw * sh)` provided the rounded height does not round below
the exact aspect value (`w * sh ≤ round(w/sw*sh) * sw`, which holds whenever
the rounding is upward or exact); when rounding goes down, the width is
recomputed from the rounded height and can be smaller than `w`. -/
theorem width_only_amended (sw sh w : ℕ) (hsw : 0 < sw) (hsh : 0 < sh) (hw : 0 < w)
    (hwmax : w ≤ U32MAX) (hhmax : roundHalfUp (w * sh) sw ≤ U32MAX)
    (hasp : w * sh ≤ roundHalfUp (w * sh) sw * sw) :
    resizeStep (Image.mk sw sh) (some w) none none =
      Image.mk w (roundHalfUp (w * sh) sw) := by
  show (Image.mk sw sh).resize w (min (roundHalfUp (w * sh) sw) U32MAX) = _
  rw [min_eq_left hhmax,
    Image.resize_eq sw sh w (roundHalfUp (w * sh) sw) hsw hsh hwmax hhmax,
    if_pos hasp, roundHalfUp_mul_left sw w hsw, Nat.max_eq_left hw, Nat.mul_comm sh w]
  have h1le : 1 ≤ roundHalfUp (w * sh) sw := by
    rcases Nat.eq_zero_or_pos (roundHalfUp (w * sh) sw) with h0 | h1
    · rw [h0, Nat.zero_mul, Nat.le_zero] at hasp
      have hpos := Nat.mul_pos hw hsh
      omega
    · exact h1
  rw [Nat.max_eq_left h1le]

/-- Claim C5 (witness for the amended theorem): a 100×100 source with
`width=50` yields exactly 50×50. -/
theorem width_only_amended_witness :
    resizeStep (Image.mk 100 100) (some 50) none none = Image.mk 50 50 := by
  have hth := width_only_amended 100 100 50 (by decide) (by decide) (by decide)
    (by decide) (by decide) (by decide)
  rw [hth]
  decide

/-- Claim C6: whenever the query fails to deserialize structurally (an
unrecognized `fit` value or a malformed numeric makes `parseQueryParams`
fail), the handler proceeds with the all-unset default `QueryParams`, i.e.
exactly as a pass-through: 200 with the untouched upstream bytes. -/
theorem query_parse_failure_fallback (pairs : List (String × String))
    (hfail : parseQueryParams pairs = none)
    (decode : List ℕ → Option (ImageFormat × Image))
    (encode : Image → ImageFormat → Option (List ℕ))
    (fetch : String → List ℕ) (upstream p : String) :
    transform_image decode encode fetch upstream (some p) pairs =
      (some (Response.mk 200 (fetch (upstream ++ "/" ++ p)) (some "application/octet-stream")),
        [upstream ++ "/" ++ p]) := by
  simp only [transform_image, hfail, Option.getD_none]
  rfl

/-- Claim C6 (witness): the unrecognized value `fit=zoom` fails the query
parse, and the request is served as a pass-through. -/
theorem query_parse_failure_fallback_witness :
    parseQueryParams [("fit", "zoom")] = none ∧
    parseQueryParams [("width", "12px")] = none ∧
    transform_image testDecode testEncode testFetch "up" (some "img") [("fit", "zoom")] =
      (some (Response.mk 200 (testFetch ("up" ++ "/" ++ "img"))
        (some "application/octet-stream")), ["up" ++ "/" ++ "img"]) :=
  ⟨rfl, rfl,
    query_parse_failure_fallback [("fit", "zoom")] rfl testDecode testEncode testFetch "up" "img"⟩

/-- Claim C8: a `format` string that is not one of jpg, jpeg, webp, png, gif
(or an absent one) maps to no override, and the destination encoding used by
`resize_image` is then the sniffed source format; no error arises from the
unrecognized string. -/
theorem unrecognized_format_falls_back (s : String)
    (hs : s ≠ "jpg" ∧ s ≠ "jpeg" ∧ s ≠ "webp" ∧ s ≠ "png" ∧ s ≠ "gif") :
    check_format_specified (some s) = none ∧
    check_format_specified none = none ∧
    ∀ (decode : List ℕ → Option (ImageFormat × Image))
      (encode : Image → ImageFormat → Option (List ℕ))
      (buffer : List ℕ) (width height : Option ℕ) (fit : Option FitType)
      (sf : ImageFormat) (img : Image),
      decode buffer = some (sf, img) →
      resize_image decode encode buffer width height fit (check_format_specified (some s)) =
        encode (resizeStep img width height fit) sf := by
  obtain ⟨h1, h2, h3, h4, h5⟩ := hs
  have hc : check_format_specified (some s) = none := by
    simp only [check_format_specified]
    rw [if_neg h1, if_neg h2, if_neg h3, if_neg h4, if_neg h5]
  refine ⟨hc, rfl, ?_⟩
  intro decode encode buffer width height fit sf img hdec
  simp only [resize_image, hdec, hc, Option.getD_none]

/-- Claim C8 (witness): `format=bmp` maps to no override and the encoder is
invoked with the sniffed source format (JPEG here). -/
theorem unrecognized_format_falls_back_witness :
    resize_image testDecode testEncode testBytes none none none
      (check_format_specified (some "bmp")) =
    testEncode (resizeStep testImage none none none) ImageFormat.Jpeg :=
  (unrecognized_format_falls_back "bmp" (by decide)).2.2 testDecode testEncode testBytes
    none none none ImageFormat.Jpeg testImage rfl

/-- Claim C9 (amended): the interpreter accepts `width=0` (`u32` is
non-negative, not positive), and the zero dimension does reach the transform
engine: whenever decode and encode succeed, the response body is the encoder
output for the resize with `width = some 0`. -/
theorem zero_width_reaches_engine
    (decode : List ℕ → Option (ImageFormat × Image))
    (encode : Image → ImageFormat → Option (List ℕ))
    (fetch : String → List ℕ) (upstream p : String)
    (sf : ImageFormat) (img : Image) (out : List ℕ)
    (hdec : decode (fetch (upstream ++ "/" ++ p)) = some (sf, img))
    (henc : encode (resizeStep img (some 0) none none) sf = some out) :
    transform_image decode encode fetch upstream (some p) [("width", "0")] =
      (some (Response.mk 200 out (some "application/octet-stream")),
        [upstream ++ "/" ++ p]) := by
  have hq : parseQueryParams [("width", "0")] =
      some (QueryParams.mk (some 0) none none none) := rfl
  simp only [transform_image, hq, Option.getD_some, QueryParams.has_resize,
    Option.isSome_some, Bool.true_or, if_true, resize_image, hdec,
    check_format_specified, Option.getD_none, henc]

/-- Claim C9 (witness for the amended theorem): the concrete request
`width=0` against the test fixtures produces the encoder output `[9,9]`. -/
theorem zero_width_reaches_engine_witness :
    transform_image testDecode testEncode testFetch "up" (some "img") [("width", "0")] =
      (some (Response.mk 200 [9, 9] (some "application/octet-stream")),
        ["up" ++ "/" ++ "img"]) :=
  zero_width_reaches_engine testDecode testEncode testFetch "up" "img" ImageFormat.Jpeg
    testImage [9, 9] rfl rfl

end Quickly
